import Mathlib

/-!
# Health-check handler (`handlers/handler.go`)

A shallow embedding of the liveness / readiness probe handler and the
proofs of its specification.

Modelling conventions.

* A Go `map[string]T` is a `GoMap T`: a list of entries whose keys are pairwise
  distinct.  `range` visits the entries in list order; every theorem below
  quantifies over all such lists, hence over every iteration order.
* A `healthcheck.Check` is a `func() error`.  It is embedded as a function of the
  state of the outside world at the time the probe is served, returning `none` for
  a `nil` error and `some msg` for an error whose `Error()` is `msg`.
* Handlers are written in state-passing style: they return the handler value, the
  response writer and the names of the checks they invoked, in invocation order.
* `sync.RWMutex` operations are not part of the sequential embedding.
-/

namespace HealthCheck

/-! ## Go maps -/

/-- A Go `map[string]α`: entries with pairwise distinct keys. -/
structure GoMap (α : Type) where
  entries : List (String × α)
  nodup : (entries.map Prod.fst).Nodup

namespace GoMap

variable {α : Type}

/-- The entry list after `m[k] = v`: overwrite the entry of `k`, or add one. -/
def setEntries (k : String) (v : α) : List (String × α) → List (String × α)
  | [] => [(k, v)]
  | e :: rest => if e.1 = k then (k, v) :: rest else e :: setEntries k v rest

/-- The value stored under `k` in an entry list, if any. -/
def getEntries (k : String) : List (String × α) → Option α
  | [] => none
  | e :: rest => if e.1 = k then some e.2 else getEntries k rest

/-- The empty map, `make(map[string]α)`. -/
def make : GoMap α := ⟨[], List.nodup_nil⟩

/-- The assignment `m[k] = v`. -/
def set (m : GoMap α) (k : String) (v : α) : GoMap α :=
  ⟨setEntries k v m.entries, by
    have hmem : ∀ (l : List (String × α)) (k' : String),
        k' ∈ (setEntries k v l).map Prod.fst → k' = k ∨ k' ∈ l.map Prod.fst := by
      intro l k'
      induction l with
      | nil => simp [setEntries]
      | cons e rest ih =>
        by_cases h : e.1 = k
        · simp [setEntries, h]
        · simp only [setEntries, h, if_false, List.map_cons, List.mem_cons]
          rintro (h1 | h1)
          · exact Or.inr (Or.inl h1)
          · rcases ih h1 with h2 | h2
            · exact Or.inl h2
            · exact Or.inr (Or.inr h2)
    have hnd : ∀ l : List (String × α), (l.map Prod.fst).Nodup →
        ((setEntries k v l).map Prod.fst).Nodup := by
      intro l
      induction l with
      | nil => simp [setEntries]
      | cons e rest ih =>
        intro h
        rw [List.map_cons, List.nodup_cons] at h
        by_cases hk : e.1 = k
        · simp only [setEntries, hk, if_true, List.map_cons, List.nodup_cons]
          exact ⟨hk ▸ h.1, h.2⟩
        · simp only [setEntries, hk, if_false, List.map_cons, List.nodup_cons]
          refine ⟨fun hm => ?_, ih h.2⟩
          rcases hmem rest e.1 hm with h1 | h1
          · exact hk h1
          · exact h.1 h1
    exact hnd m.entries m.nodup⟩

/-- The lookup `v, ok := m[k]`. -/
def get? (m : GoMap α) (k : String) : Option α := getEntries k m.entries

/-- The keys of the map, in iteration order. -/
def keys (m : GoMap α) : List String := m.entries.map Prod.fst

end GoMap

/-! ## The parts of `net/http` and `os` the handler uses -/

def MethodGet : String := "GET"
def StatusOK : Nat := 200
def StatusMethodNotAllowed : Nat := 405
def StatusServiceUnavailable : Nat := 503

/-- An `*http.Request`, reduced to what `handle` reads: the method and the parsed
query string (key/value pairs in order of appearance). -/
structure Request where
  Method : String
  Query : List (String × String)

/-- The call `url.Values.Get`: the first value of the key, or the empty string. -/
def Values.Get (q : List (String × String)) (key : String) : String :=
  match q with
  | [] => ""
  | e :: rest => if e.1 = key then e.2 else Values.Get rest key

/-- Modelled from the spec: the `response` struct that `handle` fills and hands to
the JSON encoder (its declaration is in a file that is not part of the sources): the
merged name-to-result map under `checks` and the static metadata. -/
structure response where
  Checks : GoMap String
  Metadata : GoMap String

/-- What has been written to the body of a response: literal bytes, or the indented
JSON encoding of a `response` value. -/
inductive Chunk where
  | bytes (s : String)
  | json (v : response)

/-- An `http.ResponseWriter`: header map, status code (`none` until the header is
written) and the body chunks written so far. -/
structure ResponseWriter where
  header : List (String × String)
  code : Option Nat
  body : List Chunk

/-- The call `w.Header().Set(key, value)`. -/
def ResponseWriter.headerSet (w : ResponseWriter) (key value : String) : ResponseWriter :=
  { w with header := GoMap.setEntries key value w.header }

/-- The call `w.WriteHeader(code)`: only the first call takes effect. -/
def ResponseWriter.WriteHeader (w : ResponseWriter) (code : Nat) : ResponseWriter :=
  match w.code with
  | none => { w with code := some code }
  | some _ => w

/-- The call `w.Write(b)`: writes the header with 200 if it was not written yet. -/
def ResponseWriter.Write (w : ResponseWriter) (b : Chunk) : ResponseWriter :=
  let w1 := w.WriteHeader StatusOK
  { w1 with body := w1.body ++ [b] }

/-- The call `http.Error(w, msg, code)`: plain-text content type, the status code,
and the message followed by a newline. -/
def httpError (w : ResponseWriter) (msg : String) (code : Nat) : ResponseWriter :=
  (((w.headerSet "Content-Type" "text/plain; charset=utf-8").headerSet
    "X-Content-Type-Options" "nosniff").WriteHeader code).Write (Chunk.bytes (msg ++ "\n"))

/-- The call `os.LookupEnv` on an environment: the value and whether it is set. -/
def LookupEnv (environ : String → Option String) (key : String) : String × Bool :=
  match environ key with
  | some v => (v, true)
  | none => ("", false)

/-! ## The handler -/

def livenessPatternEnvVar : String := "HEALTH_LIVENESS_PATTERN"
def readynessPatternEnvVar : String := "HEALTH_READYNESS_PATTERN"

def defaultLivenessPattern : String := "/live"
def defaultReadynessPattern : String := "/ready"

/-- A `healthcheck.Check`, run against the state of the outside world. -/
abbrev Check (σ : Type) := σ → Option String

/-- The two handler functions `NewHandler` registers in the mux. -/
inductive Endpoint where
  | LiveEndpoint
  | ReadyEndpoint
  deriving DecidableEq, Repr

/-- The struct `basicHandler`; `mux` is the embedded `http.ServeMux` (pattern to
handler function). -/
structure basicHandler (σ : Type) where
  mux : GoMap Endpoint
  livenessChecks : GoMap (Check σ)
  readinessChecks : GoMap (Check σ)
  metadata : GoMap String

/-- Modelled from the spec: the `Options` struct passed to `NewHandler` (its
declaration is in a file that is not part of the sources); `Metadata` is a Go map and
may be nil. -/
structure Options where
  Metadata : Option (GoMap String)

/-- The call `ServeMux.Handle`: panics on an empty pattern and on a pattern that is
already registered. -/
def Handle (mux : GoMap Endpoint) (pattern : String) (handler : Endpoint) :
    Except String (GoMap Endpoint) :=
  if pattern = "" then .error "http: invalid pattern"
  else if pattern ∈ mux.keys then .error ("http: multiple registrations for " ++ pattern)
  else .ok (mux.set pattern handler)

/-- The constructor `NewHandler`; an error is a panic of `ServeMux.Handle`. -/
def NewHandler {σ : Type} (options : Options) (environ : String → Option String) :
    Except String (basicHandler σ) :=
  let h : basicHandler σ :=
    { mux := GoMap.make, livenessChecks := GoMap.make, readinessChecks := GoMap.make,
      metadata := GoMap.make }
  let h : basicHandler σ :=
    match options.Metadata with
    | some m => { h with metadata := m }
    | none => h
  let (livenessPattern, ok) := LookupEnv environ livenessPatternEnvVar
  let (readynessPattern, ok) := LookupEnv environ readynessPatternEnvVar
  let livenessPattern := if !ok then defaultLivenessPattern else livenessPattern
  let readynessPattern := if !ok then defaultReadynessPattern else readynessPattern
  match Handle h.mux livenessPattern Endpoint.LiveEndpoint with
  | .error e => .error e
  | .ok mux1 =>
    match Handle mux1 readynessPattern Endpoint.ReadyEndpoint with
    | .error e => .error e
    | .ok mux2 => .ok { h with mux := mux2 }

/-- The method `AddLivenessCheck`. -/
def AddLivenessCheck {σ : Type} (s : basicHandler σ) (name : String) (check : Check σ) :
    basicHandler σ :=
  { s with livenessChecks := s.livenessChecks.set name check }

/-- The method `AddReadinessCheck`. -/
def AddReadinessCheck {σ : Type} (s : basicHandler σ) (name : String) (check : Check σ) :
    basicHandler σ :=
  { s with readinessChecks := s.readinessChecks.set name check }

/-- The out-parameters of `collectChecks` (`resultsOut`, `*statusOut`), together with
the names of the checks invoked so far. -/
structure Collected where
  resultsOut : GoMap String
  statusOut : Nat
  executed : List String

/-- One iteration of the `range` loop of `collectChecks`. -/
def collectOne {σ : Type} (world : σ) (acc : Collected) (e : String × Check σ) : Collected :=
  match e.2 world with
  | some err =>
    { resultsOut := acc.resultsOut.set e.1 err,
      statusOut := StatusServiceUnavailable,
      executed := acc.executed ++ [e.1] }
  | none =>
    { resultsOut := acc.resultsOut.set e.1 "OK",
      statusOut := acc.statusOut,
      executed := acc.executed ++ [e.1] }

/-- The method `collectChecks`. -/
def collectChecks {σ : Type} (world : σ) (checks : GoMap (Check σ)) (acc : Collected) :
    Collected :=
  checks.entries.foldl (collectOne world) acc

/-- What serving one request leaves behind: the handler, the response writer and the
names of the checks that were invoked, in order. -/
structure Served (σ : Type) where
  handler : basicHandler σ
  w : ResponseWriter
  executed : List String

/-- The method `handle`. -/
def handle {σ : Type} (s : basicHandler σ) (world : σ) (w : ResponseWriter) (r : Request)
    (checks : List (GoMap (Check σ))) : Served σ :=
  if r.Method ≠ MethodGet then
    { handler := s,
      w := httpError w "method not allowed" StatusMethodNotAllowed,
      executed := [] }
  else
    let checkResults : response := { Checks := GoMap.make, Metadata := s.metadata }
    let status := StatusOK
    let c := checks.foldl (fun acc cs => collectChecks world cs acc)
      { resultsOut := checkResults.Checks, statusOut := status, executed := [] }
    let checkResults : response := { checkResults with Checks := c.resultsOut }
    let w1 := (w.headerSet "Content-Type" "application/json; charset=utf-8").WriteHeader
      c.statusOut
    if Values.Get r.Query "full" ≠ "1" then
      { handler := s, w := w1.Write (Chunk.bytes "\x7b\x7d\n"), executed := c.executed }
    else
      { handler := s, w := w1.Write (Chunk.json checkResults), executed := c.executed }

/-- The method `LiveEndpoint`. -/
def LiveEndpoint {σ : Type} (s : basicHandler σ) (world : σ) (w : ResponseWriter)
    (r : Request) : Served σ :=
  handle s world w r [s.livenessChecks]

/-- The method `ReadyEndpoint`. -/
def ReadyEndpoint {σ : Type} (s : basicHandler σ) (world : σ) (w : ResponseWriter)
    (r : Request) : Served σ :=
  handle s world w r [s.readinessChecks, s.livenessChecks]

/-! ## Specification vocabulary -/

/-- The string a probe records for a check: `"OK"`, or the message of its error. -/
def resultOf {σ : Type} (check : Check σ) (world : σ) : String :=
  match check world with
  | none => "OK"
  | some err => err

/-- Every check of the mapping succeeds in the given world. -/
def allPass {σ : Type} (world : σ) (checks : GoMap (Check σ)) : Prop :=
  ∀ e ∈ checks.entries, e.2 world = none

instance {σ : Type} (world : σ) (checks : GoMap (Check σ)) : Decidable (allPass world checks) := by
  unfold allPass; infer_instance

/-- A request is a GET. -/
def isGet (r : Request) : Prop := r.Method = MethodGet

instance (r : Request) : Decidable (isGet r) := by unfold isGet; infer_instance

/-- The request asks for the full body (`full=1`). -/
def wantsFull (r : Request) : Prop := Values.Get r.Query "full" = "1"

instance (r : Request) : Decidable (wantsFull r) := by unfold wantsFull; infer_instance

/-- The loop of `handle` over the given check sets, from the initial status 200 and
an empty result map. -/
def collectAll {σ : Type} (world : σ) (checks : List (GoMap (Check σ))) : Collected :=
  checks.foldl (fun acc cs => collectChecks world cs acc)
    { resultsOut := GoMap.make, statusOut := StatusOK, executed := [] }

/-- The entry for name `n` in the checks map of the full body written last, if the
last thing written is a full body. -/
def reported {σ : Type} (served : Served σ) (n : String) : Option String :=
  match served.w.body.getLast? with
  | some (Chunk.json v) => v.Checks.get? n
  | _ => none

/-- One call on the handler: a registration or a probe request. -/
inductive Op (σ : Type) where
  | addLive (name : String) (check : Check σ)
  | addReady (name : String) (check : Check σ)
  | live (world : σ) (w : ResponseWriter) (r : Request)
  | ready (world : σ) (w : ResponseWriter) (r : Request)

/-- The handler after one call. -/
def applyOp {σ : Type} (s : basicHandler σ) : Op σ → basicHandler σ
  | .addLive name check => AddLivenessCheck s name check
  | .addReady name check => AddReadinessCheck s name check
  | .live world w r => (LiveEndpoint s world w r).handler
  | .ready world w r => (ReadyEndpoint s world w r).handler

/-- The handler after a sequence of calls. -/
def run {σ : Type} (s : basicHandler σ) (ops : List (Op σ)) : basicHandler σ :=
  ops.foldl applyOp s

/-- The call registers a liveness check under the name `n`. -/
def Op.setsLive {σ : Type} (n : String) : Op σ → Bool
  | .addLive name _ => decide (name = n)
  | _ => false

/-- The call registers a readiness check under the name `n`. -/
def Op.setsReady {σ : Type} (n : String) : Op σ → Bool
  | .addReady name _ => decide (name = n)
  | _ => false

/-! ## Concrete handlers and requests -/

/-- A check that succeeds. -/
def passing {σ : Type} : Check σ := fun _ => none

/-- A check that fails with the given reason. -/
def failing {σ : Type} (msg : String) : Check σ := fun _ => some msg

/-- A response writer nothing has been written to. -/
def fresh : ResponseWriter := { header := [], code := none, body := [] }

/-- A handler with no checks, no metadata and no routes. -/
def emptyHandler : basicHandler Unit :=
  { mux := GoMap.make, livenessChecks := GoMap.make, readinessChecks := GoMap.make,
    metadata := GoMap.make }

/-- Liveness check `db` fails with `timeout`; readiness check `cache` succeeds. -/
def dbDown : basicHandler Unit :=
  AddReadinessCheck (AddLivenessCheck emptyHandler "db" (failing "timeout")) "cache" passing

/-- Liveness check `db` succeeds; readiness check `cache` fails with `cold`. -/
def cacheCold : basicHandler Unit :=
  AddReadinessCheck (AddLivenessCheck emptyHandler "db" passing) "cache" (failing "cold")

/-- The name `db` is registered in both mappings: the liveness check succeeds, the
readiness check fails with `down`; readiness check `cache` succeeds. -/
def collide : basicHandler Unit :=
  AddReadinessCheck
    (AddReadinessCheck (AddLivenessCheck emptyHandler "db" passing) "db" (failing "down"))
    "cache" passing

/-- Only `HEALTH_LIVENESS_PATTERN` is set, to `/healthz`. -/
def livenessOnly (key : String) : Option String :=
  if key = "HEALTH_LIVENESS_PATTERN" then some "/healthz" else none

/-- Only `HEALTH_READYNESS_PATTERN` is set, to `/rdy`. -/
def readynessOnly (key : String) : Option String :=
  if key = "HEALTH_READYNESS_PATTERN" then some "/rdy" else none

/-- Neither pattern variable is set. -/
def noEnv (_ : String) : Option String := none

/-- The metadata `version: 1.0`. -/
def versionMeta : GoMap String := GoMap.make.set "version" "1.0"

def getPlain : Request := { Method := "GET", Query := [] }
def getFull : Request := { Method := "GET", Query := [("full", "1")] }
def getFullTrue : Request := { Method := "GET", Query := [("full", "true")] }
def postFull : Request := { Method := "POST", Query := [("full", "1")] }

/-! ## Lemmas on maps -/

namespace GoMap

variable {α : Type}

theorem mem_keys_setEntries (k : String) (v : α) (l : List (String × α)) (k' : String) :
    k' ∈ (setEntries k v l).map Prod.fst ↔ k' = k ∨ k' ∈ l.map Prod.fst := by
  induction l with
  | nil => simp [setEntries]
  | cons e rest ih =>
    by_cases h : e.1 = k
    · simp [setEntries, h]
    · simp only [setEntries, h, if_false, List.map_cons, List.mem_cons, ih]
      tauto

theorem getEntries_setEntries (k : String) (v : α) (l : List (String × α)) (k' : String) :
    getEntries k' (setEntries k v l) = if k' = k then some v else getEntries k' l := by
  induction l with
  | nil =>
    by_cases h : k' = k
    · simp [setEntries, getEntries, h]
    · have h' : ¬ k = k' := fun e => h e.symm
      simp [setEntries, getEntries, h, h']
  | cons e rest ih =>
    by_cases hk : e.1 = k
    · rw [setEntries, if_pos hk]
      by_cases h : k' = k
      · rw [getEntries, if_pos h.symm, if_pos h]
      · have h' : ¬ k = k' := fun x => h x.symm
        have h2 : ¬ e.1 = k' := fun x => h (x.symm.trans hk)
        rw [getEntries, if_neg h', if_neg h, getEntries, if_neg h2]
    · rw [setEntries, if_neg hk, getEntries, ih]
      by_cases h2 : e.1 = k'
      · have h : ¬ k' = k := fun x => hk (h2.trans x)
        rw [if_pos h2, if_neg h, getEntries, if_pos h2]
      · rw [if_neg h2, getEntries, if_neg h2]

theorem getEntries_eq_none_iff (k : String) (l : List (String × α)) :
    getEntries k l = none ↔ k ∉ l.map Prod.fst := by
  induction l with
  | nil => simp [getEntries]
  | cons e rest ih =>
    by_cases h : e.1 = k
    · simp [getEntries, h]
    · have h' : ¬ k = e.1 := fun x => h x.symm
      simp only [getEntries, h, if_false, ih, List.map_cons, List.mem_cons, not_or]
      tauto

theorem get?_set (m : GoMap α) (k : String) (v : α) (k' : String) :
    (m.set k v).get? k' = if k' = k then some v else m.get? k' :=
  getEntries_setEntries k v m.entries k'

theorem get?_eq_none_iff (m : GoMap α) (k : String) : m.get? k = none ↔ k ∉ m.keys :=
  getEntries_eq_none_iff k m.entries

theorem mem_keys_iff (m : GoMap α) (k : String) : k ∈ m.keys ↔ ∃ v, m.get? k = some v := by
  rw [← not_iff_not, ← get?_eq_none_iff]
  cases m.get? k <;> simp

theorem mem_keys_set (m : GoMap α) (k : String) (v : α) (k' : String) :
    k' ∈ (m.set k v).keys ↔ k' = k ∨ k' ∈ m.keys :=
  mem_keys_setEntries k v m.entries k'

@[simp] theorem get?_make (k : String) : (make : GoMap α).get? k = none := rfl

end GoMap

/-! ## Lemmas on `collectChecks` -/

section Collect

variable {σ : Type}

theorem foldl_collectOne_status (world : σ) (l : List (String × Check σ)) (acc : Collected) :
    (l.foldl (collectOne world) acc).statusOut =
      if (∀ e ∈ l, e.2 world = none) then acc.statusOut else StatusServiceUnavailable := by
  induction l generalizing acc with
  | nil => simp
  | cons e rest ih =>
    rw [List.foldl_cons, ih]
    have hc : (∀ x ∈ e :: rest, x.2 world = none) ↔
        e.2 world = none ∧ ∀ x ∈ rest, x.2 world = none := List.forall_mem_cons
    cases h : e.2 world with
    | none =>
      have hs : (collectOne world acc e).statusOut = acc.statusOut := by
        simp [collectOne, h]
      rw [hs]
      by_cases hr : ∀ x ∈ rest, x.2 world = none
      · rw [if_pos hr, if_pos (hc.2 ⟨h, hr⟩)]
      · rw [if_neg hr, if_neg (fun x => hr (hc.1 x).2)]
    | some err =>
      have hs : (collectOne world acc e).statusOut = StatusServiceUnavailable := by
        simp [collectOne, h]
      have hne : ¬ ∀ x ∈ e :: rest, x.2 world = none := by
        intro x
        have h1 := (hc.1 x).1
        rw [h] at h1
        cases h1
      rw [hs, if_neg hne]
      split_ifs <;> rfl

theorem foldl_collectOne_executed (world : σ) (l : List (String × Check σ)) (acc : Collected) :
    (l.foldl (collectOne world) acc).executed = acc.executed ++ l.map Prod.fst := by
  induction l generalizing acc with
  | nil => simp
  | cons e rest ih =>
    rw [List.foldl_cons, ih]
    cases h : e.2 world <;> simp [collectOne, h]

theorem collectOne_get? (world : σ) (acc : Collected) (e : String × Check σ) (n : String) :
    (collectOne world acc e).resultsOut.get? n =
      if n = e.1 then some (resultOf e.2 world) else acc.resultsOut.get? n := by
  cases h : e.2 world <;> simp [collectOne, resultOf, h, GoMap.get?_set]

theorem foldl_collectOne_get? (world : σ) (l : List (String × Check σ))
    (hl : (l.map Prod.fst).Nodup) (acc : Collected) (n : String) :
    (l.foldl (collectOne world) acc).resultsOut.get? n =
      match GoMap.getEntries n l with
      | some c => some (resultOf c world)
      | none => acc.resultsOut.get? n := by
  induction l generalizing acc with
  | nil => simp [GoMap.getEntries]
  | cons e rest ih =>
    rw [List.map_cons, List.nodup_cons] at hl
    rw [List.foldl_cons, ih hl.2]
    by_cases h : e.1 = n
    · subst h
      have hn : GoMap.getEntries e.1 rest = none :=
        (GoMap.getEntries_eq_none_iff _ _).2 hl.1
      simp [GoMap.getEntries, hn, collectOne_get?]
    · have h' : ¬ n = e.1 := fun x => h x.symm
      simp only [GoMap.getEntries, h, if_false]
      cases GoMap.getEntries n rest with
      | some c => rfl
      | none => simp [collectOne_get?, h']

theorem collectChecks_status (world : σ) (checks : GoMap (Check σ)) (acc : Collected) :
    (collectChecks world checks acc).statusOut =
      if allPass world checks then acc.statusOut else StatusServiceUnavailable :=
  foldl_collectOne_status world checks.entries acc

theorem collectChecks_executed (world : σ) (checks : GoMap (Check σ)) (acc : Collected) :
    (collectChecks world checks acc).executed = acc.executed ++ checks.keys :=
  foldl_collectOne_executed world checks.entries acc

theorem collectChecks_get? (world : σ) (checks : GoMap (Check σ)) (acc : Collected)
    (n : String) :
    (collectChecks world checks acc).resultsOut.get? n =
      match checks.get? n with
      | some c => some (resultOf c world)
      | none => acc.resultsOut.get? n :=
  foldl_collectOne_get? world checks.entries checks.nodup acc n

end Collect

/-! ## Lemmas on `handle` -/

section Handle

variable {σ : Type}

theorem Write_body (w : ResponseWriter) (b : Chunk) : (w.Write b).body = w.body ++ [b] := by
  unfold ResponseWriter.Write ResponseWriter.WriteHeader
  cases w.code <;> rfl

theorem WriteHeader_body (w : ResponseWriter) (c : Nat) : (w.WriteHeader c).body = w.body := by
  unfold ResponseWriter.WriteHeader
  cases w.code <;> rfl

theorem WriteHeader_code (w : ResponseWriter) (c : Nat) (hw : w.code = none) :
    (w.WriteHeader c).code = some c := by
  unfold ResponseWriter.WriteHeader
  rw [hw]

theorem Write_code (w : ResponseWriter) (b : Chunk) (c : Nat) (hw : w.code = some c) :
    (w.Write b).code = some c := by
  unfold ResponseWriter.Write ResponseWriter.WriteHeader
  rw [hw]
  exact hw

theorem handle_not_get (s : basicHandler σ) (world : σ) (w : ResponseWriter) (r : Request)
    (checks : List (GoMap (Check σ))) (h : ¬ isGet r) :
    handle s world w r checks =
      { handler := s,
        w := httpError w "method not allowed" StatusMethodNotAllowed,
        executed := [] } := by
  have h' : r.Method ≠ MethodGet := h
  unfold handle
  rw [if_pos h']

theorem handle_get (s : basicHandler σ) (world : σ) (w : ResponseWriter) (r : Request)
    (checks : List (GoMap (Check σ))) (h : isGet r) :
    handle s world w r checks =
      { handler := s,
        w := ((w.headerSet "Content-Type" "application/json; charset=utf-8").WriteHeader
          (collectAll world checks).statusOut).Write
            (if wantsFull r then
              Chunk.json { Checks := (collectAll world checks).resultsOut,
                           Metadata := s.metadata }
             else Chunk.bytes "\x7b\x7d\n"),
        executed := (collectAll world checks).executed } := by
  have h' : ¬ r.Method ≠ MethodGet := not_not.2 h
  unfold handle
  rw [if_neg h']
  by_cases hf : wantsFull r
  · have hf' : ¬ Values.Get r.Query "full" ≠ "1" := not_not.2 hf
    rw [if_pos hf]
    simp only [collectAll]
    rw [if_neg hf']
  · have hf' : Values.Get r.Query "full" ≠ "1" := hf
    rw [if_neg hf]
    simp only [collectAll]
    rw [if_pos hf']

theorem handle_get_code (s : basicHandler σ) (world : σ) (w : ResponseWriter) (r : Request)
    (checks : List (GoMap (Check σ))) (h : isGet r) (hw : w.code = none) :
    (handle s world w r checks).w.code = some (collectAll world checks).statusOut := by
  rw [handle_get s world w r checks h]
  exact Write_code _ _ _ (WriteHeader_code _ _ hw)

theorem handle_get_body (s : basicHandler σ) (world : σ) (w : ResponseWriter) (r : Request)
    (checks : List (GoMap (Check σ))) (h : isGet r) :
    (handle s world w r checks).w.body = w.body ++
      [if wantsFull r then
        Chunk.json { Checks := (collectAll world checks).resultsOut, Metadata := s.metadata }
       else Chunk.bytes "\x7b\x7d\n"] := by
  rw [handle_get s world w r checks h]
  simp only [Write_body, WriteHeader_body]
  rfl

theorem handle_handler (s : basicHandler σ) (world : σ) (w : ResponseWriter) (r : Request)
    (checks : List (GoMap (Check σ))) : (handle s world w r checks).handler = s := by
  unfold handle
  split_ifs <;> rfl

theorem collectAll_live_status (world : σ) (live : GoMap (Check σ)) :
    (collectAll world [live]).statusOut = if allPass world live then 200 else 503 := by
  simp only [collectAll, List.foldl_cons, List.foldl_nil, collectChecks_status]
  rfl

theorem collectAll_ready_status (world : σ) (ready live : GoMap (Check σ)) :
    (collectAll world [ready, live]).statusOut =
      if allPass world live ∧ allPass world ready then 200 else 503 := by
  simp only [collectAll, List.foldl_cons, List.foldl_nil, collectChecks_status]
  by_cases h1 : allPass world live <;> by_cases h2 : allPass world ready <;>
    simp [h1, h2, StatusOK, StatusServiceUnavailable]

theorem collectAll_live_get? (world : σ) (live : GoMap (Check σ)) (n : String) :
    (collectAll world [live]).resultsOut.get? n =
      (live.get? n).map (fun c => resultOf c world) := by
  simp only [collectAll, List.foldl_cons, List.foldl_nil, collectChecks_get?]
  cases live.get? n <;> rfl

theorem collectAll_ready_get? (world : σ) (ready live : GoMap (Check σ)) (n : String) :
    (collectAll world [ready, live]).resultsOut.get? n =
      match live.get? n with
      | some c => some (resultOf c world)
      | none => (ready.get? n).map (fun c => resultOf c world) := by
  simp only [collectAll, List.foldl_cons, List.foldl_nil, collectChecks_get?]
  cases live.get? n <;> cases ready.get? n <;> rfl

theorem collectAll_live_executed (world : σ) (live : GoMap (Check σ)) :
    (collectAll world [live]).executed = live.keys := by
  simp [collectAll, collectChecks_executed]

theorem collectAll_ready_executed (world : σ) (ready live : GoMap (Check σ)) :
    (collectAll world [ready, live]).executed = ready.keys ++ live.keys := by
  simp [collectAll, collectChecks_executed]

theorem not_allPass_of_failing (world : σ) (checks : GoMap (Check σ))
    (h : ∃ e ∈ checks.entries, e.2 world ≠ none) : ¬ allPass world checks := by
  obtain ⟨e, he, hne⟩ := h
  exact fun hall => hne (hall e he)

end Handle

/-! ## Status code of the two probes -/

section Status

variable {σ : Type}

/-- C1: for a GET request, `ReadyEndpoint` writes 200 exactly when every liveness check
and every readiness check succeeds and writes 503 otherwise; in particular one failing
liveness check gives 503, whatever the readiness mapping holds (also when it is
empty). -/
theorem ReadyEndpoint_status (s : basicHandler σ) (world : σ) (w : ResponseWriter)
    (r : Request) (hget : isGet r) (hw : w.code = none) :
    ((ReadyEndpoint s world w r).w.code = some 200 ↔
        allPass world s.livenessChecks ∧ allPass world s.readinessChecks) ∧
    (¬ (allPass world s.livenessChecks ∧ allPass world s.readinessChecks) →
        (ReadyEndpoint s world w r).w.code = some 503) ∧
    ((∃ e ∈ s.livenessChecks.entries, e.2 world ≠ none) →
        (ReadyEndpoint s world w r).w.code = some 503) := by
  have hc : (ReadyEndpoint s world w r).w.code =
      some (if allPass world s.livenessChecks ∧ allPass world s.readinessChecks
        then 200 else 503) := by
    unfold ReadyEndpoint
    rw [handle_get_code s world w r _ hget hw, collectAll_ready_status]
  refine ⟨?_, ?_, ?_⟩
  · rw [hc]
    by_cases h : allPass world s.livenessChecks ∧ allPass world s.readinessChecks
    · simp [h]
    · simp [h]
  · intro h
    rw [hc, if_neg h]
  · intro h
    rw [hc, if_neg (fun x => not_allPass_of_failing world _ h x.1)]

/-- C2: for a GET request, `LiveEndpoint` writes 200 when every liveness check succeeds
(also when there is none) and 503 when one fails; the status is the same whatever the
readiness mapping holds. -/
theorem LiveEndpoint_status (s : basicHandler σ) (world : σ) (w : ResponseWriter)
    (r : Request) (hget : isGet r) (hw : w.code = none) :
    (allPass world s.livenessChecks → (LiveEndpoint s world w r).w.code = some 200) ∧
    (s.livenessChecks.entries = [] → (LiveEndpoint s world w r).w.code = some 200) ∧
    ((∃ e ∈ s.livenessChecks.entries, e.2 world ≠ none) →
        (LiveEndpoint s world w r).w.code = some 503) ∧
    (∀ readiness : GoMap (Check σ),
        (LiveEndpoint { s with readinessChecks := readiness } world w r).w.code =
          (LiveEndpoint s world w r).w.code) := by
  have hc : ∀ t : basicHandler σ, (LiveEndpoint t world w r).w.code =
      some (if allPass world t.livenessChecks then 200 else 503) := by
    intro t
    unfold LiveEndpoint
    rw [handle_get_code t world w r _ hget hw, collectAll_live_status]
  refine ⟨?_, ?_, ?_, ?_⟩
  · intro h
    rw [hc, if_pos h]
  · intro h
    have hall : allPass world s.livenessChecks := by
      intro e he
      rw [h] at he
      cases he
    rw [hc, if_pos hall]
  · intro h
    rw [hc, if_neg (not_allPass_of_failing world _ h)]
  · intro readiness
    rw [hc, hc]

end Status

/-- Witness of C1 (`db` fails in the liveness mapping, the readiness mapping passes). -/
theorem ReadyEndpoint_status_witness :
    isGet getPlain ∧ fresh.code = none ∧ allPass () dbDown.readinessChecks ∧
      (ReadyEndpoint dbDown () fresh getPlain).w.code = some 503 :=
  ⟨by decide, rfl, by decide,
    (ReadyEndpoint_status dbDown () fresh getPlain (by decide) rfl).2.2 (by decide)⟩

/-- Witness of C2 (the readiness check `cache` fails, the liveness mapping passes). -/
theorem LiveEndpoint_status_witness :
    isGet getPlain ∧ fresh.code = none ∧ ¬ allPass () cacheCold.readinessChecks ∧
      (LiveEndpoint cacheCold () fresh getPlain).w.code = some 200 :=
  ⟨by decide, rfl, by decide,
    (LiveEndpoint_status cacheCold () fresh getPlain (by decide) rfl).1 (by decide)⟩

/-! ## The checks map of the full body -/

section Full

variable {σ : Type}

/-- C3: for a GET request with `full=1`, `LiveEndpoint` writes one JSON body whose
checks map has exactly the registered liveness names as keys; a name whose check fails
maps to the message of the error, a name whose check succeeds maps to `"OK"`; and every
registered check is invoked, whether or not another one failed. -/
theorem LiveEndpoint_full_checks (s : basicHandler σ) (world : σ) (w : ResponseWriter)
    (r : Request) (hget : isGet r) (hfull : wantsFull r) :
    ∃ checksMap : GoMap String,
      (LiveEndpoint s world w r).w.body =
        w.body ++ [Chunk.json { Checks := checksMap, Metadata := s.metadata }] ∧
      (∀ n, n ∈ checksMap.keys ↔ n ∈ s.livenessChecks.keys) ∧
      (∀ n c err, s.livenessChecks.get? n = some c → c world = some err →
        checksMap.get? n = some err) ∧
      (∀ n c, s.livenessChecks.get? n = some c → c world = none →
        checksMap.get? n = some "OK") ∧
      (LiveEndpoint s world w r).executed = s.livenessChecks.keys := by
  refine ⟨(collectAll world [s.livenessChecks]).resultsOut, ?_, ?_, ?_, ?_, ?_⟩
  · unfold LiveEndpoint
    rw [handle_get_body s world w r _ hget, if_pos hfull]
  · intro n
    rw [GoMap.mem_keys_iff, GoMap.mem_keys_iff, collectAll_live_get?]
    cases s.livenessChecks.get? n <;> simp
  · intro n c err hc herr
    rw [collectAll_live_get?, hc]
    simp [resultOf, herr]
  · intro n c hc hok
    rw [collectAll_live_get?, hc]
    simp [resultOf, hok]
  · unfold LiveEndpoint
    rw [handle_get s world w r _ hget, collectAll_live_executed]

/-- C4: for a GET request with `full=1`, `ReadyEndpoint` writes one JSON body whose
checks map has the liveness names and the readiness names as keys; a name of the
liveness mapping carries the result of the liveness check (also when the readiness
mapping has the same name), any other name the result of its readiness check. -/
theorem ReadyEndpoint_full_checks (s : basicHandler σ) (world : σ) (w : ResponseWriter)
    (r : Request) (hget : isGet r) (hfull : wantsFull r) :
    ∃ checksMap : GoMap String,
      (ReadyEndpoint s world w r).w.body =
        w.body ++ [Chunk.json { Checks := checksMap, Metadata := s.metadata }] ∧
      (∀ n, n ∈ checksMap.keys ↔ n ∈ s.livenessChecks.keys ∨ n ∈ s.readinessChecks.keys) ∧
      (∀ n c, s.livenessChecks.get? n = some c →
        checksMap.get? n = some (resultOf c world)) ∧
      (∀ n c, s.livenessChecks.get? n = none → s.readinessChecks.get? n = some c →
        checksMap.get? n = some (resultOf c world)) := by
  refine ⟨(collectAll world [s.readinessChecks, s.livenessChecks]).resultsOut, ?_, ?_, ?_, ?_⟩
  · unfold ReadyEndpoint
    rw [handle_get_body s world w r _ hget, if_pos hfull]
  · intro n
    rw [GoMap.mem_keys_iff, GoMap.mem_keys_iff, GoMap.mem_keys_iff, collectAll_ready_get?]
    cases s.livenessChecks.get? n <;> cases s.readinessChecks.get? n <;> simp
  · intro n c hc
    rw [collectAll_ready_get?, hc]
  · intro n c hl hc
    rw [collectAll_ready_get?, hl, hc]
    rfl

end Full

/-- Witness of C3 (`db` fails with `timeout`). -/
theorem LiveEndpoint_full_checks_witness :
    isGet getFull ∧ wantsFull getFull ∧
    reported (LiveEndpoint dbDown () fresh getFull) "db" = some "timeout" ∧
    ∃ checksMap : GoMap String,
      (LiveEndpoint dbDown () fresh getFull).w.body =
        fresh.body ++ [Chunk.json { Checks := checksMap, Metadata := dbDown.metadata }] ∧
      (∀ n, n ∈ checksMap.keys ↔ n ∈ dbDown.livenessChecks.keys) ∧
      (∀ n c err, dbDown.livenessChecks.get? n = some c → c () = some err →
        checksMap.get? n = some err) ∧
      (∀ n c, dbDown.livenessChecks.get? n = some c → c () = none →
        checksMap.get? n = some "OK") ∧
      (LiveEndpoint dbDown () fresh getFull).executed = dbDown.livenessChecks.keys :=
  ⟨by decide, by decide, by decide,
    LiveEndpoint_full_checks dbDown () fresh getFull (by decide) (by decide)⟩

/-- Witness of C4 (`db` is registered in both mappings). -/
theorem ReadyEndpoint_full_checks_witness :
    isGet getFull ∧ wantsFull getFull ∧
    reported (ReadyEndpoint collide () fresh getFull) "db" = some "OK" ∧
    reported (ReadyEndpoint collide () fresh getFull) "cache" = some "OK" ∧
    ∃ checksMap : GoMap String,
      (ReadyEndpoint collide () fresh getFull).w.body =
        fresh.body ++ [Chunk.json { Checks := checksMap, Metadata := collide.metadata }] ∧
      (∀ n, n ∈ checksMap.keys ↔
        n ∈ collide.livenessChecks.keys ∨ n ∈ collide.readinessChecks.keys) ∧
      (∀ n c, collide.livenessChecks.get? n = some c →
        checksMap.get? n = some (resultOf c ())) ∧
      (∀ n c, collide.livenessChecks.get? n = none → collide.readinessChecks.get? n = some c →
        checksMap.get? n = some (resultOf c ())) :=
  ⟨by decide, by decide, by decide, by decide,
    ReadyEndpoint_full_checks collide () fresh getFull (by decide) (by decide)⟩

/-! ## Requests that are not GET, and requests without `full=1` -/

section Method

variable {σ : Type}

/-- C5: for a request whose method is not GET, both endpoints write 405 and the text
`method not allowed`, whatever checks are registered and whatever they would return;
they invoke no check and return the handler as it was. -/
theorem not_get_405 (s : basicHandler σ) (world : σ) (w : ResponseWriter) (r : Request)
    (hmethod : ¬ isGet r) (hw : w.code = none) :
    (LiveEndpoint s world w r).w.code = some 405 ∧
    (ReadyEndpoint s world w r).w.code = some 405 ∧
    (LiveEndpoint s world w r).w.body = w.body ++ [Chunk.bytes "method not allowed\n"] ∧
    (ReadyEndpoint s world w r).w.body = w.body ++ [Chunk.bytes "method not allowed\n"] ∧
    (LiveEndpoint s world w r).executed = [] ∧
    (ReadyEndpoint s world w r).executed = [] ∧
    (LiveEndpoint s world w r).handler = s ∧
    (ReadyEndpoint s world w r).handler = s := by
  have hcode : (httpError w "method not allowed" StatusMethodNotAllowed).code = some 405 := by
    unfold httpError
    exact Write_code _ _ _ (WriteHeader_code _ _ hw)
  have hbody : (httpError w "method not allowed" StatusMethodNotAllowed).body =
      w.body ++ [Chunk.bytes "method not allowed\n"] := by
    unfold httpError
    rw [Write_body, WriteHeader_body]
    rfl
  unfold LiveEndpoint ReadyEndpoint
  rw [handle_not_get s world w r _ hmethod, handle_not_get s world w r _ hmethod]
  exact ⟨hcode, hcode, hbody, hbody, rfl, rfl, rfl, rfl⟩

/-- C6: for a GET request whose `full` parameter is not exactly `1`, both endpoints
write the three-byte body `{}` plus newline and nothing else, and the status code is
200 when the checks of the endpoint all succeed and 503 otherwise. -/
theorem minimal_body (s : basicHandler σ) (world : σ) (w : ResponseWriter) (r : Request)
    (hget : isGet r) (hfull : ¬ wantsFull r) (hw : w.code = none) :
    (LiveEndpoint s world w r).w.body = w.body ++ [Chunk.bytes "\x7b\x7d\n"] ∧
    (ReadyEndpoint s world w r).w.body = w.body ++ [Chunk.bytes "\x7b\x7d\n"] ∧
    "\x7b\x7d\n".utf8ByteSize = 3 ∧
    (LiveEndpoint s world w r).w.code =
      some (if allPass world s.livenessChecks then 200 else 503) ∧
    (ReadyEndpoint s world w r).w.code =
      some (if allPass world s.livenessChecks ∧ allPass world s.readinessChecks
        then 200 else 503) := by
  unfold LiveEndpoint ReadyEndpoint
  refine ⟨?_, ?_, by decide, ?_, ?_⟩
  · rw [handle_get_body s world w r _ hget, if_neg hfull]
  · rw [handle_get_body s world w r _ hget, if_neg hfull]
  · rw [handle_get_code s world w r _ hget hw, collectAll_live_status]
  · rw [handle_get_code s world w r _ hget hw, collectAll_ready_status]

end Method

/-- Witness of C5 (a POST while `db` is failing). -/
theorem not_get_405_witness :
    ¬ isGet postFull ∧ fresh.code = none ∧
    (LiveEndpoint dbDown () fresh postFull).w.code = some 405 ∧
    (ReadyEndpoint dbDown () fresh postFull).w.code = some 405 ∧
    (LiveEndpoint dbDown () fresh postFull).w.body =
      fresh.body ++ [Chunk.bytes "method not allowed\n"] ∧
    (ReadyEndpoint dbDown () fresh postFull).w.body =
      fresh.body ++ [Chunk.bytes "method not allowed\n"] ∧
    (LiveEndpoint dbDown () fresh postFull).executed = [] ∧
    (ReadyEndpoint dbDown () fresh postFull).executed = [] ∧
    (LiveEndpoint dbDown () fresh postFull).handler = dbDown ∧
    (ReadyEndpoint dbDown () fresh postFull).handler = dbDown :=
  ⟨by decide, rfl, not_get_405 dbDown () fresh postFull (by decide) rfl⟩

/-- Witness of C6 (`full=true` while `db` is failing). -/
theorem minimal_body_witness :
    isGet getFullTrue ∧ ¬ wantsFull getFullTrue ∧ fresh.code = none ∧
    (LiveEndpoint dbDown () fresh getFullTrue).w.body =
      fresh.body ++ [Chunk.bytes "\x7b\x7d\n"] ∧
    (LiveEndpoint dbDown () fresh getFullTrue).w.code = some 503 :=
  ⟨by decide, by decide, rfl,
    (minimal_body dbDown () fresh getFullTrue (by decide) (by decide) rfl).1,
    (minimal_body dbDown () fresh getFullTrue (by decide) (by decide) rfl).2.2.2.1⟩

/-! ## Registration -/

section Registration

variable {σ : Type}

theorem reported_live (s : basicHandler σ) (world : σ) (w : ResponseWriter) (r : Request)
    (hget : isGet r) (hfull : wantsFull r) (n : String) :
    reported (LiveEndpoint s world w r) n =
      (s.livenessChecks.get? n).map (fun c => resultOf c world) := by
  unfold reported LiveEndpoint
  rw [handle_get_body s world w r _ hget, if_pos hfull, List.getLast?_concat]
  exact collectAll_live_get? world s.livenessChecks n

theorem reported_ready (s : basicHandler σ) (world : σ) (w : ResponseWriter) (r : Request)
    (hget : isGet r) (hfull : wantsFull r) (n : String) :
    reported (ReadyEndpoint s world w r) n =
      match s.livenessChecks.get? n with
      | some c => some (resultOf c world)
      | none => (s.readinessChecks.get? n).map (fun c => resultOf c world) := by
  unfold reported ReadyEndpoint
  rw [handle_get_body s world w r _ hget, if_pos hfull, List.getLast?_concat]
  exact collectAll_ready_get? world s.readinessChecks s.livenessChecks n

theorem applyOp_metadata (s : basicHandler σ) (op : Op σ) :
    (applyOp s op).metadata = s.metadata := by
  cases op with
  | addLive name check => rfl
  | addReady name check => rfl
  | live world w r => simp only [applyOp, LiveEndpoint, handle_handler]
  | ready world w r => simp only [applyOp, ReadyEndpoint, handle_handler]

theorem run_metadata (s : basicHandler σ) (ops : List (Op σ)) :
    (run s ops).metadata = s.metadata := by
  induction ops generalizing s with
  | nil => rfl
  | cons op rest ih =>
    show (run (applyOp s op) rest).metadata = s.metadata
    rw [ih, applyOp_metadata]

theorem applyOp_live_get? (s : basicHandler σ) (op : Op σ) (n : String)
    (h : Op.setsLive n op = false) :
    (applyOp s op).livenessChecks.get? n = s.livenessChecks.get? n := by
  cases op with
  | addLive name check =>
    have hne : ¬ n = name := by
      intro e
      simp [Op.setsLive, e] at h
    simp only [applyOp, AddLivenessCheck, GoMap.get?_set, if_neg hne]
  | addReady name check => rfl
  | live world w r => simp only [applyOp, LiveEndpoint, handle_handler]
  | ready world w r => simp only [applyOp, ReadyEndpoint, handle_handler]

theorem applyOp_ready_get? (s : basicHandler σ) (op : Op σ) (n : String)
    (h : Op.setsReady n op = false) :
    (applyOp s op).readinessChecks.get? n = s.readinessChecks.get? n := by
  cases op with
  | addLive name check => rfl
  | addReady name check =>
    have hne : ¬ n = name := by
      intro e
      simp [Op.setsReady, e] at h
    simp only [applyOp, AddReadinessCheck, GoMap.get?_set, if_neg hne]
  | live world w r => simp only [applyOp, LiveEndpoint, handle_handler]
  | ready world w r => simp only [applyOp, ReadyEndpoint, handle_handler]

theorem run_live_get? (s : basicHandler σ) (ops : List (Op σ)) (n : String)
    (h : ∀ op ∈ ops, Op.setsLive n op = false) :
    (run s ops).livenessChecks.get? n = s.livenessChecks.get? n := by
  induction ops generalizing s with
  | nil => rfl
  | cons op rest ih =>
    show (run (applyOp s op) rest).livenessChecks.get? n = s.livenessChecks.get? n
    rw [ih _ (fun o ho => h o (List.mem_cons_of_mem _ ho)),
      applyOp_live_get? s op n (h op (List.mem_cons_self _ _))]

theorem run_ready_get? (s : basicHandler σ) (ops : List (Op σ)) (n : String)
    (h : ∀ op ∈ ops, Op.setsReady n op = false) :
    (run s ops).readinessChecks.get? n = s.readinessChecks.get? n := by
  induction ops generalizing s with
  | nil => rfl
  | cons op rest ih =>
    show (run (applyOp s op) rest).readinessChecks.get? n = s.readinessChecks.get? n
    rw [ih _ (fun o ho => h o (List.mem_cons_of_mem _ ho)),
      applyOp_ready_get? s op n (h op (List.mem_cons_self _ _))]

theorem count_keys_set (m : GoMap (Check σ)) (n : String) (c : Check σ) :
    (m.set n c).keys.count n = 1 :=
  List.count_eq_one_of_mem (m.set n c).nodup ((GoMap.mem_keys_set m n c n).2 (Or.inl rfl))

end Registration

section Reregistration

variable {σ : Type}

/-- C7 (amended): registering `n` twice in a mapping leaves exactly one entry for `n`,
the second check, and changes nothing else. After two liveness registrations every
probe of either endpoint reports the second check for `n` until `n` is registered as a
liveness check again. After two readiness registrations every readiness probe reports
the second check for `n` as long as `n` is not a liveness name and is not registered
again; when `n` is a liveness name the readiness probe reports the liveness check. A
liveness probe never reports a readiness check: for every name it reports the result of
the liveness check of that name, and nothing when the name has no liveness check. -/
theorem reregistration_replaces (s : basicHandler σ) (n : String) (c1 c2 : Check σ) :
    ((AddLivenessCheck (AddLivenessCheck s n c1) n c2).livenessChecks.get? n = some c2 ∧
      (AddLivenessCheck (AddLivenessCheck s n c1) n c2).livenessChecks.keys.count n = 1 ∧
      (∀ k, k ≠ n → (AddLivenessCheck (AddLivenessCheck s n c1) n c2).livenessChecks.get? k =
        s.livenessChecks.get? k) ∧
      (AddLivenessCheck (AddLivenessCheck s n c1) n c2).readinessChecks = s.readinessChecks ∧
      (AddLivenessCheck (AddLivenessCheck s n c1) n c2).metadata = s.metadata ∧
      (∀ (ops : List (Op σ)) (world : σ) (w : ResponseWriter) (r : Request),
        (∀ op ∈ ops, Op.setsLive n op = false) → isGet r → wantsFull r →
        reported (LiveEndpoint (run (AddLivenessCheck (AddLivenessCheck s n c1) n c2) ops)
          world w r) n = some (resultOf c2 world) ∧
        reported (ReadyEndpoint (run (AddLivenessCheck (AddLivenessCheck s n c1) n c2) ops)
          world w r) n = some (resultOf c2 world))) ∧
    ((AddReadinessCheck (AddReadinessCheck s n c1) n c2).readinessChecks.get? n = some c2 ∧
      (AddReadinessCheck (AddReadinessCheck s n c1) n c2).readinessChecks.keys.count n = 1 ∧
      (∀ k, k ≠ n → (AddReadinessCheck (AddReadinessCheck s n c1) n c2).readinessChecks.get? k =
        s.readinessChecks.get? k) ∧
      (AddReadinessCheck (AddReadinessCheck s n c1) n c2).livenessChecks = s.livenessChecks ∧
      (AddReadinessCheck (AddReadinessCheck s n c1) n c2).metadata = s.metadata ∧
      (∀ (ops : List (Op σ)) (world : σ) (w : ResponseWriter) (r : Request),
        (∀ op ∈ ops, Op.setsReady n op = false) → (∀ op ∈ ops, Op.setsLive n op = false) →
        isGet r → wantsFull r →
        reported (ReadyEndpoint (run (AddReadinessCheck (AddReadinessCheck s n c1) n c2) ops)
          world w r) n =
          match s.livenessChecks.get? n with
          | some cL => some (resultOf cL world)
          | none => some (resultOf c2 world)) ∧
      (∀ (k : String) (ops : List (Op σ)) (world : σ) (w : ResponseWriter) (r : Request),
        (∀ op ∈ ops, Op.setsLive k op = false) → isGet r → wantsFull r →
        reported (LiveEndpoint (run (AddReadinessCheck (AddReadinessCheck s n c1) n c2) ops)
          world w r) k = (s.livenessChecks.get? k).map (fun cL => resultOf cL world))) := by
  refine ⟨⟨?_, ?_, ?_, rfl, rfl, ?_⟩, ⟨?_, ?_, ?_, rfl, rfl, ?_, ?_⟩⟩
  · simp [AddLivenessCheck, GoMap.get?_set]
  · exact count_keys_set _ n c2
  · intro k hk
    simp [AddLivenessCheck, GoMap.get?_set, hk]
  · intro ops world w r hops hget hfull
    have hl : (run (AddLivenessCheck (AddLivenessCheck s n c1) n c2) ops).livenessChecks.get? n
        = some c2 := by
      rw [run_live_get? _ ops n hops]
      simp [AddLivenessCheck, GoMap.get?_set]
    rw [reported_live _ world w r hget hfull, reported_ready _ world w r hget hfull, hl]
    exact ⟨rfl, rfl⟩
  · simp [AddReadinessCheck, GoMap.get?_set]
  · exact count_keys_set _ n c2
  · intro k hk
    simp [AddReadinessCheck, GoMap.get?_set, hk]
  · intro ops world w r hops hopsL hget hfull
    have hr : (run (AddReadinessCheck (AddReadinessCheck s n c1) n c2) ops).readinessChecks.get? n
        = some c2 := by
      rw [run_ready_get? _ ops n hops]
      simp [AddReadinessCheck, GoMap.get?_set]
    have hl : (run (AddReadinessCheck (AddReadinessCheck s n c1) n c2) ops).livenessChecks.get? n
        = s.livenessChecks.get? n := by
      rw [run_live_get? _ ops n hopsL]
      rfl
    rw [reported_ready _ world w r hget hfull, hl, hr]
    cases s.livenessChecks.get? n <;> rfl
  · intro k ops world w r hopsL hget hfull
    have hl : (run (AddReadinessCheck (AddReadinessCheck s n c1) n c2) ops).livenessChecks.get? k
        = s.livenessChecks.get? k := by
      rw [run_live_get? _ ops k hopsL]
      rfl
    rw [reported_live _ world w r hget hfull, hl]

end Reregistration

/-- Witness of C7 (amended): `cache` registered twice as a readiness check, a liveness
registration of another name and a probe in between. -/
theorem reregistration_replaces_witness :
    isGet getFull ∧ wantsFull getFull ∧
    reported (ReadyEndpoint
      (run (AddReadinessCheck (AddReadinessCheck emptyHandler "cache" passing) "cache"
        (failing "cold")) [Op.addLive "db" passing, Op.live () fresh getPlain])
      () fresh getFull) "cache" = some "cold" ∧
    reported (LiveEndpoint
      (run (AddReadinessCheck (AddReadinessCheck emptyHandler "cache" passing) "cache"
        (failing "cold")) [Op.addLive "db" passing, Op.live () fresh getPlain])
      () fresh getFull) "cache" = none :=
  ⟨by decide, by decide,
    (reregistration_replaces emptyHandler "cache" passing (failing "cold")).2.2.2.2.2.2.1
      [Op.addLive "db" passing, Op.live () fresh getPlain] () fresh getFull
      (by decide) (by decide) (by decide) (by decide),
    (reregistration_replaces emptyHandler "cache" passing (failing "cold")).2.2.2.2.2.2.2
      "cache" [Op.addLive "db" passing, Op.live () fresh getPlain] () fresh getFull
      (by decide) (by decide) (by decide)⟩

/-- C7 as stated fails: with `db` registered as a succeeding liveness check, registering
`db` twice as a readiness check (the second one failing with `down`) makes the
readiness probe report `OK` for `db`, the liveness result, and not `down`; and a
liveness probe reports nothing for a name that is only a readiness name. -/
theorem readiness_reregistration_shadowed :
    reported (ReadyEndpoint
      (AddReadinessCheck (AddReadinessCheck (AddLivenessCheck emptyHandler "db" passing)
        "db" (failing "stale")) "db" (failing "down")) () fresh getFull) "db" = some "OK" ∧
    resultOf (failing "down" : Check Unit) () = "down" ∧
    reported (ReadyEndpoint
      (AddReadinessCheck (AddReadinessCheck (AddLivenessCheck emptyHandler "db" passing)
        "db" (failing "stale")) "db" (failing "down")) () fresh getFull) "db" ≠
      some (resultOf (failing "down" : Check Unit) ()) ∧
    reported (LiveEndpoint
      (AddReadinessCheck (AddReadinessCheck emptyHandler "cache" (failing "stale"))
        "cache" (failing "cold")) () fresh getFull) "cache" = none := by
  decide

/-! ## Construction -/

/-- C8 fails on the code: with only `HEALTH_LIVENESS_PATTERN` set (to `/healthz`) the
liveness endpoint is registered at the default `/live`, and with only
`HEALTH_READYNESS_PATTERN` set the liveness pattern is empty and `Handle` panics. With
both set or both unset the patterns are the configured ones, resp. the defaults. -/
theorem NewHandler_pattern_fallback_shared :
    (NewHandler (σ := Unit) { Metadata := none } livenessOnly).toOption.map
        (fun h => h.mux.entries) =
      some [("/live", Endpoint.LiveEndpoint), ("/ready", Endpoint.ReadyEndpoint)] ∧
    (NewHandler (σ := Unit) { Metadata := none } readynessOnly).toOption.map
        (fun h => h.mux.entries) = none ∧
    (NewHandler (σ := Unit) { Metadata := none } noEnv).toOption.map
        (fun h => h.mux.entries) =
      some [("/live", Endpoint.LiveEndpoint), ("/ready", Endpoint.ReadyEndpoint)] ∧
    (NewHandler (σ := Unit) { Metadata := none }
        (fun key => if key = "HEALTH_LIVENESS_PATTERN" then some "/healthz"
          else if key = "HEALTH_READYNESS_PATTERN" then some "/rdy" else none)).toOption.map
        (fun h => h.mux.entries) =
      some [("/healthz", Endpoint.LiveEndpoint), ("/rdy", Endpoint.ReadyEndpoint)] := by
  decide

section Metadata

variable {σ : Type}

theorem NewHandler_metadata (options : Options) (environ : String → Option String)
    (h : basicHandler σ) (hok : NewHandler options environ = .ok h) :
    h.metadata = options.Metadata.getD GoMap.make := by
  unfold NewHandler at hok
  simp only at hok
  split at hok
  · cases hok
  · split at hok
    · cases hok
    · cases hok
      cases options.Metadata <;> rfl

theorem NewHandler_noEnv (options : Options) :
    ∃ h : basicHandler σ, NewHandler options noEnv = .ok h := by
  cases hm : options.Metadata with
  | none => exact ⟨_, by simp [NewHandler, hm, LookupEnv, noEnv, Handle]; rfl⟩
  | some m => exact ⟨_, by simp [NewHandler, hm, LookupEnv, noEnv, Handle]; rfl⟩

end Metadata

section WriteOnce

variable {σ : Type}

/-- C9: `NewHandler` succeeds when no pattern variable is set, and for every handler it
returns, after every sequence of registrations and probes, the handler's metadata and
the metadata of every full body written by either endpoint is the mapping given in
`Options` (the empty mapping when `Options` gives none), whatever the checks return. -/
theorem metadata_write_once (options : Options) :
    (∃ h : basicHandler σ, NewHandler options noEnv = .ok h) ∧
    ∀ (environ : String → Option String) (h : basicHandler σ),
      NewHandler options environ = .ok h →
      ∀ (ops : List (Op σ)) (world : σ) (w : ResponseWriter) (r : Request),
        isGet r → wantsFull r →
        (run h ops).metadata = options.Metadata.getD GoMap.make ∧
        (∃ checksMap : GoMap String, (LiveEndpoint (run h ops) world w r).w.body =
          w.body ++ [Chunk.json { Checks := checksMap,
                                  Metadata := options.Metadata.getD GoMap.make }]) ∧
        (∃ checksMap : GoMap String, (ReadyEndpoint (run h ops) world w r).w.body =
          w.body ++ [Chunk.json { Checks := checksMap,
                                  Metadata := options.Metadata.getD GoMap.make }]) := by
  refine ⟨NewHandler_noEnv options, ?_⟩
  intro environ h hok ops world w r hget hfull
  have hm : (run h ops).metadata = options.Metadata.getD GoMap.make := by
    rw [run_metadata, NewHandler_metadata options environ h hok]
  refine ⟨hm, ⟨(collectAll world [(run h ops).livenessChecks]).resultsOut, ?_⟩,
    ⟨(collectAll world [(run h ops).readinessChecks, (run h ops).livenessChecks]).resultsOut,
      ?_⟩⟩
  · unfold LiveEndpoint
    rw [handle_get_body _ world w r _ hget, if_pos hfull, hm]
  · unfold ReadyEndpoint
    rw [handle_get_body _ world w r _ hget, if_pos hfull, hm]

end WriteOnce

/-- Witness of C9: metadata `version: 1.0`, a failing liveness check registered and a
probe served before the full request. -/
theorem metadata_write_once_witness :
    isGet getFull ∧ wantsFull getFull ∧
    (∃ h : basicHandler Unit, NewHandler { Metadata := some versionMeta } noEnv = .ok h ∧
      (run h [Op.addLive "db" (failing "timeout"), Op.ready () fresh getFull]).metadata =
        versionMeta ∧
      ∃ checksMap : GoMap String,
        (ReadyEndpoint (run h [Op.addLive "db" (failing "timeout"), Op.ready () fresh getFull])
          () fresh getFull).w.body =
          fresh.body ++ [Chunk.json { Checks := checksMap, Metadata := versionMeta }]) := by
  refine ⟨by decide, by decide, ?_⟩
  obtain ⟨h, hok⟩ := (metadata_write_once (σ := Unit) { Metadata := some versionMeta }).1
  have key := (metadata_write_once (σ := Unit) { Metadata := some versionMeta }).2 noEnv h hok
    [Op.addLive "db" (failing "timeout"), Op.ready () fresh getFull] () fresh getFull
    (by decide) (by decide)
  exact ⟨h, hok, key.1, key.2.2⟩

end HealthCheck
